import Mathlib

/-!
Shallow embedding of the simple-cni IP allocation subsystem.

Source files modelled:
- pkg/store/store.go : persistent store (data file, in-memory map, Add/Del/queries)
- pkg/ipam (ipam.go) : NewIPAM, NextIP, AllocateIP, ReleaseIP

Modelling choices:
- IPv4 addresses are natural numbers (big-endian value of the 4 bytes); the
  net.IP string keys used by the Go map are in bijection with these values, so
  keys are Nat as well. The net.ParseIP of an empty or garbage cursor string
  yields nil, which we model as Option.none.
- The Go map data.IPs is modelled as an association list with Go-map
  insert/delete semantics (one entry per key in every state reachable through
  a real Go map).
- File I/O is modelled by an explicit FileState value; os read/write errors
  are out of scope (the spec treats them as surfaced verbatim), so Save is
  total. json.Unmarshal failure is the FileState.corrupt case.
- The unbounded for-loop of AllocateIP is modelled with explicit fuel; the
  fuel passed by AllocateIP is the subnet size, matching the specified bound
  on the scan. A result of none means the Go loop has run longer than that
  bound (and, on the cyclic states exhibited below, runs forever).
-/

instance {ε α : Type} [DecidableEq ε] [DecidableEq α] : DecidableEq (Except ε α) := by
  intro x y
  cases x <;> cases y
  case error.error a b =>
    exact if h : a = b then .isTrue (by simp [h]) else .isFalse (by simp [h])
  case error.ok a b => exact .isFalse (by simp)
  case ok.error a b => exact .isFalse (by simp)
  case ok.ok a b =>
    exact if h : a = b then .isTrue (by simp [h]) else .isFalse (by simp [h])

/-- Go struct containerNetInfo (store.go): the value stored per allocated IP. -/
structure ContainerNetInfo where
  containerID : String
  ifName : String
deriving Repr, DecidableEq

/-- In-memory form of the Go struct data (store.go) after LoadData has ensured
the map is non-nil: association list keyed by IP with the Last cursor parsed
by net.ParseIP (none when the string is empty or unparseable). -/
structure StoreData where
  ips : List (Nat × ContainerNetInfo)
  last : Option Nat
deriving Repr, DecidableEq

/-- Raw form of the Go struct data as json.Unmarshal produces it: the IPs map
may still be nil (none), exactly the case LoadData normalizes away. -/
structure RawData where
  ips : Option (List (Nat × ContainerNetInfo))
  last : Option Nat
deriving Repr, DecidableEq

/-- The data file on disk: missing, present but unparseable, or a parsed
document. json.Marshal is deterministic, so identifying file content with the
parsed document is faithful for the files the code itself writes. -/
inductive FileState where
  | absent
  | corrupt
  | stored (raw : RawData)
deriving Repr, DecidableEq

/-- Serialization performed by Store.Save: the marshalled document always
carries the (non-nil) map and the cursor. -/
def serialize (st : StoreData) : RawData := ⟨some st.ips, st.last⟩

/-- Normalization performed after load: a nil map becomes the empty map. -/
def normalizeData (raw : RawData) : StoreData := ⟨raw.ips.getD [], raw.last⟩

/-- Store.LoadData (store.go): read the data file. Missing file: create it
with the empty document and keep the zero-value data (nil map replaced by the
empty map). Unparseable file: surface the error, touching neither the file
nor the previous in-memory data. Parseable file: adopt its content, with a
nil map replaced by the empty map. Returns the file after the call and the
in-memory data (still in raw form so that map nil-ness is observable). -/
def LoadData : FileState → FileState × Except Unit RawData
  | .absent => (.stored ⟨none, none⟩, .ok ⟨some [], none⟩)
  | .corrupt => (.corrupt, .error ())
  | .stored raw => (.stored raw, .ok ⟨some (raw.ips.getD []), raw.last⟩)

/-- Store.Save (store.go): marshal the in-memory document and overwrite the
data file (write errors out of scope). -/
def Save (st : StoreData) : FileState := .stored (serialize st)

/-- Store.GetIPById (store.go): first map entry whose ContainerID matches. -/
def GetIPById (st : StoreData) (id : String) : Option Nat :=
  (st.ips.find? (fun p => p.2.containerID == id)).map (fun p => p.1)

/-- Store.Contain (store.go): key membership in the IPs map. -/
def Contain (st : StoreData) (ip : Nat) : Bool :=
  st.ips.any (fun p => p.1 == ip)

/-- Go map assignment m[k] = v: overwrite the entry when the key is present,
otherwise add a new entry. -/
def mapInsert (m : List (Nat × ContainerNetInfo)) (k : Nat) (v : ContainerNetInfo) :
    List (Nat × ContainerNetInfo) :=
  if m.any (fun p => p.1 == k) then
    m.map (fun p => if p.1 == k then (k, v) else p)
  else
    m ++ [(k, v)]

/-- In-memory part of Store.Add (store.go): record the allocation and move the
Last cursor to it. The len(ip) == 0 guard of the Go code is unreachable here
because a Nat always denotes a valid address. Store.Add then calls Save. -/
def Store.Add (st : StoreData) (ip : Nat) (id ifName : String) : StoreData :=
  ⟨mapInsert st.ips ip ⟨id, ifName⟩, some ip⟩

/-- In-memory part of Store.Del (store.go): remove the first entry whose
ContainerID matches; leave the data untouched when there is no match. -/
def DelMem (st : StoreData) (id : String) : StoreData :=
  match st.ips.find? (fun p => p.2.containerID == id) with
  | some _ => ⟨st.ips.eraseP (fun p => p.2.containerID == id), st.last⟩
  | none => st

/-- Store.Del (store.go) with its file effect: on a match, delete the record
and Save; on no match, return nil without writing the file. -/
def Del (st : StoreData) (file : FileState) (id : String) :
    (StoreData × FileState) × Except Unit Unit :=
  match st.ips.find? (fun p => p.2.containerID == id) with
  | some _ => ((DelMem st id, Save (DelMem st id)), .ok ())
  | none => ((st, file), .ok ())

/-- The subnet field of the IPAM struct: a parsed *net.IPNet, network address
already masked by net.ParseCIDR. -/
structure Subnet where
  network : Nat
  prefixLen : Nat
deriving Repr, DecidableEq

/-- Number of addresses in a subnet with the given prefix length. -/
def blockSize (prefixLen : Nat) : Nat := 2 ^ (32 - prefixLen)

/-- (*net.IPNet).Contains: mask the address and compare with the network. -/
def Subnet.contains (s : Subnet) (ip : Nat) : Bool :=
  ip / blockSize s.prefixLen == s.network / blockSize s.prefixLen

/-- Error values of the ipam package: ErrIPOverflow and the
fmt.Errorf no available IP failure of AllocateIP. -/
inductive IPAMErr where
  | overflow
  | noAvailableIP
deriving Repr, DecidableEq

/-- The IPAM struct (ipam.go): subnet plus the gateway computed at
construction time. The store is passed explicitly to each operation. -/
structure IPAM where
  subnet : Subnet
  gateway : Nat
deriving Repr, DecidableEq

/-- IPAM.NextIP (ipam.go): increment (containernetworking ip.NextIP) and fail
with ErrIPOverflow when the successor leaves the subnet. -/
def NextIP (s : Subnet) (ip : Nat) : Except Unit Nat :=
  if s.contains (ip + 1) then .ok (ip + 1) else .error ()

/-- NewIPAM (ipam.go): net.ParseCIDR masks the address to the network base;
the gateway is NextIP of the network, and the constructor fails when that
overflows (subnet too small). -/
def NewIPAM (addr prefixLen : Nat) : Option IPAM :=
  let s : Subnet := ⟨addr / blockSize prefixLen * blockSize prefixLen, prefixLen⟩
  match NextIP s s.network with
  | .ok g => some ⟨s, g⟩
  | .error _ => none

/-- The for-loop of IPAM.AllocateIP (ipam.go), with explicit fuel. One fuel
unit is one loop iteration: compute NextIP of the candidate; on overflow wrap
to the gateway unless the scan started at the gateway (then fail with
ErrIPOverflow); allocate the successor when it is free; otherwise advance,
failing with the no available IP error when the scan is back at its start. -/
def allocLoop (a : IPAM) (st : StoreData) (id ifName : String) (lastIP : Nat) :
    Nat → Nat → Option (Except IPAMErr (Nat × StoreData))
  | currIP, fuel + 1 =>
    match NextIP a.subnet currIP with
    | .error _ =>
      if lastIP ≠ a.gateway then
        allocLoop a st id ifName lastIP a.gateway fuel
      else
        some (.error .overflow)
    | .ok nxt =>
      if Contain st nxt = false then
        some (.ok (nxt, Store.Add st nxt id ifName))
      else if nxt = lastIP then
        some (.error .noAvailableIP)
      else
        allocLoop a st id ifName lastIP nxt fuel
  | _, 0 => none

/-- Size of the subnet managed by an IPAM, the specified bound on the scan. -/
def subnetSize (a : IPAM) : Nat := blockSize a.subnet.prefixLen

/-- IPAM.AllocateIP (ipam.go), on data already loaded under the store lock:
return the existing address of the container if any; otherwise scan from the
Last cursor (gateway when the cursor is absent or unparseable) with fuel equal
to the subnet size. A result of none means the loop exceeded that bound. -/
def AllocateIP (a : IPAM) (st : StoreData) (id ifName : String) :
    Option (Except IPAMErr (Nat × StoreData)) :=
  match GetIPById st id with
  | some ip => some (.ok (ip, st))
  | none =>
    allocLoop a st id ifName (st.last.getD a.gateway) (st.last.getD a.gateway) (subnetSize a)

/-- IPAM.ReleaseIP (ipam.go): lock, LoadData, Store.Del. -/
def ReleaseIP (file : FileState) (id : String) : FileState × Except Unit Unit :=
  match LoadData file with
  | (f1, .error _) => (f1, .error ())
  | (f1, .ok raw) =>
    let r := Del (normalizeData raw) f1 id
    (r.1.2, r.2)

/-- Well-formedness facts true of every IPAM produced by NewIPAM: the network
base is aligned, and the gateway is the in-subnet successor of the network. -/
def IPAM.WF (a : IPAM) : Prop :=
  a.subnet.network % blockSize a.subnet.prefixLen = 0 ∧
  a.gateway = a.subnet.network + 1 ∧
  a.subnet.contains a.gateway = true

/-- Cursor sanity: the Last value is absent or unparseable, or it parses to an
address inside the subnet other than the network address. Every state the
code itself writes satisfies this (the cursor is always a freshly allocated
address strictly above the gateway). -/
def cursorOK (a : IPAM) (st : StoreData) : Bool :=
  match st.last with
  | none => true
  | some l => a.subnet.contains l && (l != a.subnet.network)

/-- One client-visible operation against one subnet. -/
inductive Op where
  | alloc (id ifName : String)
  | release (id : String)
deriving Repr, DecidableEq

/-- Effect of one operation on the store state: a successful AllocateIP
commits its record, every failing (or diverging) call leaves the data
untouched, and ReleaseIP is Store.Del. -/
def applyOp (a : IPAM) (st : StoreData) : Op → StoreData
  | .alloc id ifName =>
    match AllocateIP a st id ifName with
    | some (.ok (_, st1)) => st1
    | _ => st
  | .release id => DelMem st id

/-- Store state after a sequence of operations starting from the empty store. -/
def run (a : IPAM) (ops : List Op) : StoreData :=
  ops.foldl (applyOp a) ⟨[], none⟩

/-- The store invariant of the spec: each IP key appears at most once and each
containerID appears in at most one record. -/
def StoreInv (st : StoreData) : Prop :=
  (st.ips.map (fun p => p.1)).Nodup ∧
  (st.ips.map (fun p => p.2.containerID)).Nodup

/-- Canonical store state after k successful fresh allocations for the
pairwise-distinct container ids f 0, ..., f (k-1), starting from the empty
store: addresses network+2, ..., network+1+k in order, cursor at the newest. -/
def seqState (a : IPAM) (f : Nat → String) (ifName : String) (k : Nat) : StoreData :=
  ⟨(List.range k).map (fun j => (a.subnet.network + 2 + j, ⟨f j, ifName⟩)),
   if k = 0 then none else some (a.subnet.network + 1 + k)⟩

/-- The concrete subnet 10.244.0.0/30 of the spec example. -/
def a30 : IPAM := ⟨⟨183762944, 30⟩, 183762945⟩

/-- A concrete injective family of container ids, used to instantiate the
exhaustion scenario. -/
def wid (n : Nat) : String := String.mk (List.replicate n 'a')


/-! Arithmetic facts about subnet membership. -/

lemma blockSize_pos (p : Nat) : 0 < blockSize p :=
  pow_pos (by norm_num) _

lemma contains_iff {a : IPAM} (hWF : a.WF) (ip : Nat) :
    a.subnet.contains ip = true ↔
      a.subnet.network ≤ ip ∧ ip < a.subnet.network + subnetSize a := by
  obtain ⟨halign, -, -⟩ := hWF
  have hpos : 0 < blockSize a.subnet.prefixLen := blockSize_pos _
  have hq : a.subnet.network / blockSize a.subnet.prefixLen * blockSize a.subnet.prefixLen
      = a.subnet.network := Nat.div_mul_cancel (Nat.dvd_of_mod_eq_zero halign)
  constructor
  · intro h
    have h1 : ip / blockSize a.subnet.prefixLen
        = a.subnet.network / blockSize a.subnet.prefixLen := by
      simpa [Subnet.contains] using h
    have h2 : a.subnet.network ≤ ip := by
      calc a.subnet.network
          = ip / blockSize a.subnet.prefixLen * blockSize a.subnet.prefixLen := by
            rw [h1, hq]
        _ ≤ ip := Nat.div_mul_le_self ip _
    refine ⟨h2, ?_⟩
    have h3 : blockSize a.subnet.prefixLen * (ip / blockSize a.subnet.prefixLen)
        + ip % blockSize a.subnet.prefixLen = ip := Nat.div_add_mod ip _
    have h4 : ip % blockSize a.subnet.prefixLen < blockSize a.subnet.prefixLen :=
      Nat.mod_lt _ hpos
    have h5 : blockSize a.subnet.prefixLen * (ip / blockSize a.subnet.prefixLen)
        = a.subnet.network := by
      rw [h1, Nat.mul_comm, hq]
    show ip < a.subnet.network + blockSize a.subnet.prefixLen
    omega
  · rintro ⟨hle, hlt⟩
    have hlt2 : ip < a.subnet.network + blockSize a.subnet.prefixLen := hlt
    have hd : ip / blockSize a.subnet.prefixLen
        = a.subnet.network / blockSize a.subnet.prefixLen := by
      apply Nat.div_eq_of_lt_le
      · rw [hq]; exact hle
      · rw [Nat.add_mul, one_mul, hq]; exact hlt2
    simp [Subnet.contains, hd]

lemma WF_two_le {a : IPAM} (hWF : a.WF) : 2 ≤ subnetSize a := by
  have h := (contains_iff hWF a.gateway).mp hWF.2.2
  rw [hWF.2.1] at h
  omega

lemma NextIP_ok {a : IPAM} (hWF : a.WF) {ip : Nat} (h1 : a.subnet.network ≤ ip + 1)
    (h2 : ip + 1 < a.subnet.network + subnetSize a) :
    NextIP a.subnet ip = .ok (ip + 1) := by
  have hc : a.subnet.contains (ip + 1) = true := (contains_iff hWF _).mpr ⟨h1, h2⟩
  simp [NextIP, hc]

lemma NextIP_overflow {a : IPAM} (hWF : a.WF) {ip : Nat}
    (h : a.subnet.network + subnetSize a ≤ ip + 1) :
    NextIP a.subnet ip = .error () := by
  have hc : a.subnet.contains (ip + 1) = false := by
    cases hb : a.subnet.contains (ip + 1) with
    | false => rfl
    | true =>
      have := ((contains_iff hWF (ip + 1)).mp hb).2
      omega
  simp [NextIP, hc]

/-! Facts about the store queries and mutations. -/

lemma Contain_eq_false_iff (st : StoreData) (ip : Nat) :
    Contain st ip = false ↔ ∀ p ∈ st.ips, p.1 ≠ ip := by
  simp [Contain]

lemma GetIPById_eq_none_iff (st : StoreData) (id : String) :
    GetIPById st id = none ↔ ∀ p ∈ st.ips, p.2.containerID ≠ id := by
  simp [GetIPById, List.find?_eq_none]

lemma GetIPById_some_mem {st : StoreData} {id : String} {ip : Nat}
    (h : GetIPById st id = some ip) : ∃ info, (ip, info) ∈ st.ips := by
  unfold GetIPById at h
  cases hf : st.ips.find? (fun p => p.2.containerID == id) with
  | none => rw [hf] at h; simp at h
  | some p =>
    obtain ⟨p1, p2⟩ := p
    rw [hf] at h
    simp only [Option.map_some'] at h
    have hmem := List.mem_of_find?_eq_some hf
    cases h
    exact ⟨p2, hmem⟩

lemma Add_ips_new {st : StoreData} {ip : Nat} {id ifName : String}
    (h : Contain st ip = false) :
    (Store.Add st ip id ifName).ips = st.ips ++ [(ip, ⟨id, ifName⟩)] := by
  have h2 : st.ips.any (fun p => p.1 == ip) = false := h
  simp [Store.Add, mapInsert, h2]

lemma find?_append_none {α : Type} (p : α → Bool) {l1 : List α}
    (h : l1.find? p = none) (l2 : List α) :
    (l1 ++ l2).find? p = l2.find? p := by
  rw [List.find?_append, h, Option.none_or]

lemma GetIPById_none_find? {st : StoreData} {id : String}
    (hid : GetIPById st id = none) :
    st.ips.find? (fun p => p.2.containerID == id) = none := by
  unfold GetIPById at hid
  cases hf : st.ips.find? (fun p => p.2.containerID == id) with
  | none => rfl
  | some p => rw [hf] at hid; simp at hid

lemma GetIPById_Add_self {st : StoreData} {ip : Nat} {id ifName : String}
    (hid : GetIPById st id = none) (hip : Contain st ip = false) :
    GetIPById (Store.Add st ip id ifName) id = some ip := by
  rw [GetIPById, Add_ips_new hip, find?_append_none _ (GetIPById_none_find? hid)]
  simp [List.find?]

/-! Unfolding equations and a characterization of the allocation loop. -/

lemma allocLoop_zero (a : IPAM) (st : StoreData) (id ifName : String) (L curr : Nat) :
    allocLoop a st id ifName L curr 0 = none := rfl

lemma allocLoop_succ (a : IPAM) (st : StoreData) (id ifName : String) (L curr fuel : Nat) :
    allocLoop a st id ifName L curr (fuel + 1) =
      match NextIP a.subnet curr with
      | .error _ =>
        if L ≠ a.gateway then allocLoop a st id ifName L a.gateway fuel
        else some (.error .overflow)
      | .ok nxt =>
        if Contain st nxt = false then some (.ok (nxt, Store.Add st nxt id ifName))
        else if nxt = L then some (.error .noAvailableIP)
        else allocLoop a st id ifName L nxt fuel := rfl

lemma allocLoop_ok (a : IPAM) (st : StoreData) (id ifName : String) (L : Nat) :
    ∀ fuel curr ip st1,
      allocLoop a st id ifName L curr fuel = some (.ok (ip, st1)) →
      Contain st ip = false ∧ st1 = Store.Add st ip id ifName := by
  intro fuel
  induction fuel with
  | zero => intro curr ip st1 h; rw [allocLoop_zero] at h; cases h
  | succ n ih =>
    intro curr ip st1 h
    rw [allocLoop_succ] at h
    split at h
    · split at h
      · exact ih _ _ _ h
      · cases h
    · next nxt heq =>
      split at h
      · next hcon =>
        simp only [Option.some.injEq, Except.ok.injEq, Prod.mk.injEq] at h
        obtain ⟨h1, h2⟩ := h
        subst h1
        exact ⟨hcon, h2.symm⟩
      · split at h
        · cases h
        · exact ih _ _ _ h

lemma allocLoop_ok_gt (a : IPAM) (st : StoreData) (id ifName : String) (L : Nat) :
    ∀ fuel curr ip st1,
      a.gateway ≤ curr →
      allocLoop a st id ifName L curr fuel = some (.ok (ip, st1)) →
      a.gateway < ip := by
  intro fuel
  induction fuel with
  | zero => intro curr ip st1 _ h; rw [allocLoop_zero] at h; cases h
  | succ n ih =>
    intro curr ip st1 hcurr h
    rw [allocLoop_succ] at h
    split at h
    · split at h
      · exact ih _ _ _ (Nat.le_refl _) h
      · cases h
    · next nxt heq =>
      have hnxt : nxt = curr + 1 := by
        unfold NextIP at heq
        split at heq
        · cases heq; rfl
        · cases heq
      split at h
      · simp only [Option.some.injEq, Except.ok.injEq, Prod.mk.injEq] at h
        obtain ⟨h1, -⟩ := h
        omega
      · split at h
        · cases h
        · exact ih _ _ _ (by omega) h

lemma AllocateIP_ok_cases {a : IPAM} {st st1 : StoreData} {id ifName : String} {ip : Nat}
    (h : AllocateIP a st id ifName = some (.ok (ip, st1))) :
    (GetIPById st id = some ip ∧ st1 = st) ∨
    (GetIPById st id = none ∧ Contain st ip = false ∧ st1 = Store.Add st ip id ifName) := by
  unfold AllocateIP at h
  cases hg : GetIPById st id with
  | some j =>
    rw [hg] at h
    simp only [Option.some.injEq, Except.ok.injEq, Prod.mk.injEq] at h
    obtain ⟨h1, h2⟩ := h
    subst h1
    exact Or.inl ⟨rfl, h2.symm⟩
  | none =>
    rw [hg] at h
    have := allocLoop_ok a st id ifName _ _ _ _ _ h
    exact Or.inr ⟨rfl, this.1, this.2⟩

/-! Preservation of the store invariant. -/

lemma StoreInv_Add {st : StoreData} {ip : Nat} {id ifName : String}
    (hinv : StoreInv st) (hip : Contain st ip = false) (hid : GetIPById st id = none) :
    StoreInv (Store.Add st ip id ifName) := by
  obtain ⟨hk, hc⟩ := hinv
  have h1 : ∀ p ∈ st.ips, p.1 ≠ ip := (Contain_eq_false_iff st ip).mp hip
  have h2 : ∀ p ∈ st.ips, p.2.containerID ≠ id := (GetIPById_eq_none_iff st id).mp hid
  have hips := @Add_ips_new st ip id ifName hip
  constructor
  · show ((Store.Add st ip id ifName).ips.map (fun p => p.1)).Nodup
    rw [hips]
    have hnm : ip ∉ st.ips.map (fun p => p.1) := by
      simp only [List.mem_map, not_exists]
      rintro p ⟨hp, hpe⟩
      exact h1 p hp hpe
    simp [List.nodup_append, hk, hnm]
  · show ((Store.Add st ip id ifName).ips.map (fun p => p.2.containerID)).Nodup
    rw [hips]
    have hnm : id ∉ st.ips.map (fun p => p.2.containerID) := by
      simp only [List.mem_map, not_exists]
      rintro p ⟨hp, hpe⟩
      exact h2 p hp hpe
    simp [List.nodup_append, hc, hnm]

lemma StoreInv_DelMem {st : StoreData} (id : String) (hinv : StoreInv st) :
    StoreInv (DelMem st id) := by
  obtain ⟨hk, hc⟩ := hinv
  unfold DelMem
  split
  · have hsub : List.Sublist (st.ips.eraseP (fun p => p.2.containerID == id)) st.ips :=
      List.eraseP_sublist st.ips
    exact ⟨hk.sublist (hsub.map _), hc.sublist (hsub.map _)⟩
  · exact ⟨hk, hc⟩

lemma StoreInv_applyOp (a : IPAM) (st : StoreData) (op : Op) (hinv : StoreInv st) :
    StoreInv (applyOp a st op) := by
  cases op with
  | alloc id ifName =>
    show StoreInv
      (match AllocateIP a st id ifName with
       | some (.ok (_, st1)) => st1
       | _ => st)
    cases hr : AllocateIP a st id ifName with
    | none => exact hinv
    | some r =>
      cases r with
      | error e => exact hinv
      | ok pr =>
        obtain ⟨ip, st1⟩ := pr
        show StoreInv st1
        rcases AllocateIP_ok_cases hr with ⟨-, h2⟩ | ⟨h1, h2, h3⟩
        · rw [h2]; exact hinv
        · rw [h3]; exact StoreInv_Add hinv h2 h1
  | release id => exact StoreInv_DelMem id hinv

lemma StoreInv_foldl (a : IPAM) :
    ∀ (ops : List Op) (st : StoreData), StoreInv st → StoreInv (ops.foldl (applyOp a) st) := by
  intro ops
  induction ops with
  | nil => intro st h; exact h
  | cons op ops ih =>
    intro st h
    exact ih _ (StoreInv_applyOp a st op h)

/-- Claim C1: starting from the empty store, any sequence of AllocateIP and
ReleaseIP operations yields a store in which each IP key appears in at most
one record and each containerID appears in at most one record; consequently
two records with the same address are the same record, so no two different
container IDs ever simultaneously hold the same address. -/
theorem alloc_release_store_invariant (a : IPAM) (ops : List Op) :
    StoreInv (run a ops) ∧
    ∀ p ∈ (run a ops).ips, ∀ q ∈ (run a ops).ips, p.1 = q.1 → p = q := by
  have hinv : StoreInv (run a ops) :=
    StoreInv_foldl a ops ⟨[], none⟩ ⟨List.nodup_nil, List.nodup_nil⟩
  refine ⟨hinv, ?_⟩
  intro p hp q hq hpq
  exact List.inj_on_of_nodup_map hinv.1 hp hq hpq

/-- Claim C3: a container that already owns an address gets exactly that
address back from AllocateIP with the store (records and cursor) unchanged,
and two consecutive AllocateIP calls without an intervening ReleaseIP return
the same address, the second leaving the state of the first untouched. -/
theorem allocate_idempotent (a : IPAM) (st st1 : StoreData) (id ifName : String) (ip : Nat) :
    (GetIPById st id = some ip → AllocateIP a st id ifName = some (.ok (ip, st))) ∧
    (AllocateIP a st id ifName = some (.ok (ip, st1)) →
      AllocateIP a st1 id ifName = some (.ok (ip, st1))) := by
  constructor
  · intro h
    unfold AllocateIP
    rw [h]
  · intro h
    rcases AllocateIP_ok_cases h with ⟨h1, h2⟩ | ⟨h1, h2, h3⟩
    · subst h2
      unfold AllocateIP
      rw [h1]
    · have hg : GetIPById st1 id = some ip := by
        rw [h3]
        exact GetIPById_Add_self h1 h2
      unfold AllocateIP
      rw [hg]

/-- Witness for Claim C3 at the concrete subnet 10.244.0.0/30. -/
theorem allocate_idempotent_witness :
    AllocateIP a30 ⟨[(183762946, ⟨"c1", "eth0"⟩)], some 183762946⟩ "c1" "eth0"
      = some (.ok (183762946, ⟨[(183762946, ⟨"c1", "eth0"⟩)], some 183762946⟩)) :=
  (allocate_idempotent a30 ⟨[(183762946, ⟨"c1", "eth0"⟩)], some 183762946⟩
    ⟨[(183762946, ⟨"c1", "eth0"⟩)], some 183762946⟩ "c1" "eth0" 183762946).1 rfl

/-- Claim C4: for a container with no existing allocation the scan starts at
the Last cursor, or at the gateway when no cursor is recorded; when advancing
the candidate overflows the subnet and the scan start differs from the
gateway, the candidate is reset to the gateway and the scan continues; when
it overflows and the scan started at the gateway, the call fails with the
fatal ErrIPOverflow error. -/
theorem allocate_scan_start_wrap (a : IPAM) (st : StoreData) (id ifName : String)
    (L curr fuel : Nat) (h : GetIPById st id = none) :
    AllocateIP a st id ifName
      = allocLoop a st id ifName (st.last.getD a.gateway) (st.last.getD a.gateway) (subnetSize a)
    ∧ (st.last = none → st.last.getD a.gateway = a.gateway)
    ∧ (NextIP a.subnet curr = .error () → L ≠ a.gateway →
        allocLoop a st id ifName L curr (fuel + 1) = allocLoop a st id ifName L a.gateway fuel)
    ∧ (NextIP a.subnet curr = .error () → L = a.gateway →
        allocLoop a st id ifName L curr (fuel + 1) = some (.error .overflow)) := by
  refine ⟨?_, ?_, ?_, ?_⟩
  · unfold AllocateIP
    rw [h]
  · intro hl
    rw [hl]
    rfl
  · intro hn hne
    rw [allocLoop_succ, hn]
    simp [hne]
  · intro hn he
    rw [allocLoop_succ, hn]
    simp [he]

/-- Witness for Claim C4: on 10.244.0.0/30 an overflowing candidate wraps to
the gateway when the scan started elsewhere, and aborts with the overflow
error when the scan started at the gateway. -/
theorem allocate_scan_start_wrap_witness :
    allocLoop a30 ⟨[], none⟩ "w1" "eth0" 183762947 183762947 3
        = allocLoop a30 ⟨[], none⟩ "w1" "eth0" 183762947 183762945 2
    ∧ allocLoop a30 ⟨[], none⟩ "w1" "eth0" 183762945 183762947 3
        = some (.error .overflow) :=
  ⟨(allocate_scan_start_wrap a30 ⟨[], none⟩ "w1" "eth0" 183762947 183762947 2
      rfl).2.2.1 rfl (by decide),
   (allocate_scan_start_wrap a30 ⟨[], none⟩ "w1" "eth0" 183762945 183762947 2
      rfl).2.2.2 rfl rfl⟩

/-- Claim C7: LoadData creates the absent data file with an empty valid
document and succeeds; on an unparseable file it returns the parse error and
leaves the file untouched; and after every successful LoadData the in-memory
allocation map is non-nil even when the file had no entries. -/
theorem loaddata_behavior :
    LoadData .absent = (.stored ⟨none, none⟩, .ok ⟨some [], none⟩)
    ∧ LoadData .corrupt = (.corrupt, .error ())
    ∧ ∀ (f f1 : FileState) (d : RawData), LoadData f = (f1, .ok d) → d.ips ≠ none := by
  refine ⟨rfl, rfl, ?_⟩
  intro f f1 d h
  cases f with
  | absent =>
    simp only [LoadData, Prod.mk.injEq, Except.ok.injEq] at h
    rw [← h.2]
    simp
  | corrupt =>
    simp only [LoadData, Prod.mk.injEq] at h
    cases h.2
  | stored raw =>
    simp only [LoadData, Prod.mk.injEq, Except.ok.injEq] at h
    rw [← h.2]
    simp

/-- Claim C8: releasing a containerID that matches no record succeeds: the
underlying Store.Del leaves the store untouched and returns nil, and the full
ReleaseIP (LoadData followed by Del) on a parseable file also returns success
with the file unchanged. -/
theorem release_missing_container_ok (st : StoreData) (file : FileState) (raw : RawData)
    (id : String) (h1 : GetIPById st id = none)
    (h2 : GetIPById (normalizeData raw) id = none) :
    Del st file id = ((st, file), .ok ()) ∧
    ReleaseIP (.stored raw) id = (.stored raw, .ok ()) := by
  have hf1 := GetIPById_none_find? h1
  have hf2 := GetIPById_none_find? h2
  have hf2b : ((raw.ips.getD []).find? (fun p => p.2.containerID == id)) = none := by
    simpa [normalizeData] using hf2
  constructor
  · unfold Del
    rw [hf1]
  · simp [ReleaseIP, LoadData, Del, normalizeData, hf2b]

/-- Witness for Claim C8: deleting an unknown container from a one-record
store and releasing it against the corresponding file both succeed. -/
theorem release_missing_container_ok_witness :
    Del ⟨[(183762946, ⟨"c1", "eth0"⟩)], some 183762946⟩ (.stored ⟨some [], none⟩) "nobody"
        = ((⟨[(183762946, ⟨"c1", "eth0"⟩)], some 183762946⟩, .stored ⟨some [], none⟩), .ok ())
    ∧ ReleaseIP (.stored ⟨some [(183762946, ⟨"c1", "eth0"⟩)], some 183762946⟩) "nobody"
        = (.stored ⟨some [(183762946, ⟨"c1", "eth0"⟩)], some 183762946⟩, .ok ()) :=
  release_missing_container_ok ⟨[(183762946, ⟨"c1", "eth0"⟩)], some 183762946⟩
    (.stored ⟨some [], none⟩) ⟨some [(183762946, ⟨"c1", "eth0"⟩)], some 183762946⟩
    "nobody" rfl rfl

/-- Claim C10: when the containerID matches no record, Store.Del performs no
Save at all, so the data file is left exactly as it was. -/
theorem del_no_match_leaves_file (st : StoreData) (file : FileState) (id : String)
    (h : GetIPById st id = none) :
    (Del st file id).1.2 = file := by
  unfold Del
  rw [GetIPById_none_find? h]

/-- Witness for Claim C10: a no-match delete leaves even a corrupt data file
untouched, because nothing is written. -/
theorem del_no_match_leaves_file_witness :
    (Del ⟨[(183762946, ⟨"c1", "eth0"⟩)], some 183762946⟩ .corrupt "nobody").1.2 = .corrupt :=
  del_no_match_leaves_file ⟨[(183762946, ⟨"c1", "eth0"⟩)], some 183762946⟩ .corrupt "nobody" rfl

/-- Witness for Claim C7: the successful load of an absent file yields a
non-nil in-memory map. -/
theorem loaddata_behavior_witness : (⟨some [], none⟩ : RawData).ips ≠ none :=
  loaddata_behavior.2.2 .absent (.stored ⟨none, none⟩) ⟨some [], none⟩ rfl

/-- Counterexample to Claim C2: on subnet 10.244.0.0/30 with an empty store,
AllocateIP for c1 returns 10.244.0.2 as claimed, but the subsequent
AllocateIP for c2 returns 10.244.0.3 (the address 183762947, the broadcast
address of the block, which Contains does not exclude) rather than any error,
so the claimed exhaustion failure does not occur. -/
theorem spec_example_counterexample :
    NewIPAM 183762944 30 = some a30
    ∧ AllocateIP a30 ⟨[], none⟩ "c1" "eth0"
        = some (.ok (183762946, ⟨[(183762946, ⟨"c1", "eth0"⟩)], some 183762946⟩))
    ∧ AllocateIP a30 ⟨[(183762946, ⟨"c1", "eth0"⟩)], some 183762946⟩ "c2" "eth0"
        = some (.ok (183762947,
            ⟨[(183762946, ⟨"c1", "eth0"⟩), (183762947, ⟨"c2", "eth0"⟩)], some 183762947⟩))
    ∧ AllocateIP a30 ⟨[(183762946, ⟨"c1", "eth0"⟩)], some 183762946⟩ "c2" "eth0"
        ≠ some (.error .noAvailableIP)
    ∧ AllocateIP a30 ⟨[(183762946, ⟨"c1", "eth0"⟩)], some 183762946⟩ "c2" "eth0"
        ≠ some (.error .overflow) := by decide

/-- Claim C2 as amended: on 10.244.0.0/30 from the empty store, c1 obtains
10.244.0.2 and c2 obtains 10.244.0.3 (the scan does not exclude the broadcast
address); only the third distinct container hits the no available IP
exhaustion error. -/
theorem spec_example_amended :
    AllocateIP a30 ⟨[], none⟩ "c1" "eth0"
        = some (.ok (183762946, ⟨[(183762946, ⟨"c1", "eth0"⟩)], some 183762946⟩))
    ∧ AllocateIP a30 ⟨[(183762946, ⟨"c1", "eth0"⟩)], some 183762946⟩ "c2" "eth0"
        = some (.ok (183762947,
            ⟨[(183762946, ⟨"c1", "eth0"⟩), (183762947, ⟨"c2", "eth0"⟩)], some 183762947⟩))
    ∧ AllocateIP a30
        ⟨[(183762946, ⟨"c1", "eth0"⟩), (183762947, ⟨"c2", "eth0"⟩)], some 183762947⟩
        "c3" "eth0"
        = some (.error .noAvailableIP) := by decide

set_option maxRecDepth 8000 in
/-- Counterexample to Claim C6: a store whose cursor is the network address
10.244.0.0 (a state the code never writes itself but C6 quantifies over every
store state) with the whole block allocated makes the scan cycle through the
subnet forever; it is still running after 1000 iterations even though the
subnet only has 4 addresses, so the scan is not bounded by the subnet size. -/
theorem allocate_nontermination_counterexample :
    subnetSize a30 = 4
    ∧ AllocateIP a30
        ⟨[(183762945, ⟨"c1", "eth0"⟩), (183762946, ⟨"c2", "eth0"⟩),
          (183762947, ⟨"c3", "eth0"⟩)], some 183762944⟩ "c9" "eth0" = none
    ∧ allocLoop a30
        ⟨[(183762945, ⟨"c1", "eth0"⟩), (183762946, ⟨"c2", "eth0"⟩),
          (183762947, ⟨"c3", "eth0"⟩)], some 183762944⟩ "c9" "eth0"
        183762944 183762944 1000 = none := by decide

/-- Counterexample to Claim C9: a store that already holds a record keying
the gateway to c1 and has no cursor (so the cursor hypothesis of the claim is
satisfied) makes AllocateIP return the gateway 10.244.0.1 through its
idempotent early-return path. -/
theorem allocate_gateway_counterexample :
    cursorOK a30 ⟨[(183762945, ⟨"c1", "eth0"⟩)], none⟩ = true
    ∧ AllocateIP a30 ⟨[(183762945, ⟨"c1", "eth0"⟩)], none⟩ "c1" "eth0"
        = some (.ok (183762945, ⟨[(183762945, ⟨"c1", "eth0"⟩)], none⟩))
    ∧ 183762945 = a30.gateway := by decide

/-! Termination of the scan for well-placed cursors. -/

lemma loopTerm_close (a : IPAM) (st : StoreData) (id ifName : String) (L : Nat)
    (hWF : a.WF) (hL : L < a.subnet.network + subnetSize a) :
    ∀ fuel curr, a.subnet.network ≤ curr → curr < L → L - curr ≤ fuel →
      (allocLoop a st id ifName L curr fuel).isSome = true := by
  intro fuel
  induction fuel with
  | zero => intro curr h1 h2 h3; omega
  | succ n ih =>
    intro curr h1 h2 h3
    have hnext : NextIP a.subnet curr = .ok (curr + 1) :=
      NextIP_ok hWF (by omega) (by omega)
    rw [allocLoop_succ, hnext]
    cases hcon : Contain st (curr + 1) with
    | false => simp [hcon]
    | true =>
      by_cases he : curr + 1 = L
      · subst he
        simp [hcon]
      · have hrec := ih (curr + 1) (by omega) (by omega) (by omega)
        simpa [hcon, he] using hrec

lemma loopTerm_main (a : IPAM) (st : StoreData) (id ifName : String) (L : Nat)
    (hWF : a.WF) (hLg : a.gateway ≤ L) (hLmax : L < a.subnet.network + subnetSize a) :
    ∀ fuel curr, L ≤ curr → curr < a.subnet.network + subnetSize a →
      (a.subnet.network + subnetSize a - 1 - curr) + 1 + (L - a.gateway) ≤ fuel →
      (allocLoop a st id ifName L curr fuel).isSome = true := by
  have hgw := hWF.2.1
  intro fuel
  induction fuel with
  | zero => intro curr h1 h2 h3; omega
  | succ n ih =>
    intro curr h1 h2 h3
    by_cases hmax : curr + 1 < a.subnet.network + subnetSize a
    · have hnext : NextIP a.subnet curr = .ok (curr + 1) :=
        NextIP_ok hWF (by omega) hmax
      rw [allocLoop_succ, hnext]
      cases hcon : Contain st (curr + 1) with
      | false => simp [hcon]
      | true =>
        by_cases he : curr + 1 = L
        · omega
        · have hrec := ih (curr + 1) (by omega) hmax (by omega)
          simpa [hcon, he] using hrec
    · have hov : NextIP a.subnet curr = .error () := NextIP_overflow hWF (by omega)
      rw [allocLoop_succ, hov]
      by_cases hLgw : L = a.gateway
      · simp [hLgw]
      · have hclose := loopTerm_close a st id ifName L hWF hLmax n a.gateway
          (by omega) (by omega) (by omega)
        simpa [hLgw] using hclose

/-- Claim C6 as amended: provided the Last cursor is absent, unparseable, or
a parseable address inside the subnet other than the network address (which
holds for every state the code itself writes), the AllocateIP scan terminates
within subnet-size iterations, visiting each candidate at most once; without
that proviso the scan can cycle forever, as the counterexample shows. -/
theorem allocate_scan_terminates (a : IPAM) (st : StoreData) (id ifName : String)
    (hWF : a.WF) (hcur : cursorOK a st = true) :
    (AllocateIP a st id ifName).isSome = true := by
  unfold AllocateIP
  cases hg : GetIPById st id with
  | some ip => simp
  | none =>
    have hb := WF_two_le hWF
    have hgw := hWF.2.1
    have hgwlt : a.gateway < a.subnet.network + subnetSize a :=
      ((contains_iff hWF _).mp hWF.2.2).2
    have hL : a.gateway ≤ st.last.getD a.gateway ∧
        st.last.getD a.gateway < a.subnet.network + subnetSize a := by
      cases hl : st.last with
      | none => simp [hgwlt]
      | some L =>
        unfold cursorOK at hcur
        rw [hl] at hcur
        simp only [Bool.and_eq_true, bne_iff_ne, ne_eq] at hcur
        obtain ⟨hc, hne⟩ := hcur
        have hcb := (contains_iff hWF L).mp hc
        simp only [Option.getD_some]
        omega
    exact loopTerm_main a st id ifName _ hWF hL.1 hL.2 (subnetSize a) _
      (Nat.le_refl _) hL.2 (by omega)

/-- Witness for Claim C6: the empty store has a well-placed (absent) cursor
and its allocation scan terminates. -/
theorem allocate_scan_terminates_witness :
    IPAM.WF a30 ∧ cursorOK a30 ⟨[], none⟩ = true
    ∧ (AllocateIP a30 ⟨[], none⟩ "c1" "eth0").isSome = true :=
  ⟨⟨rfl, rfl, rfl⟩, rfl, allocate_scan_terminates a30 ⟨[], none⟩ "c1" "eth0" ⟨rfl, rfl, rfl⟩ rfl⟩

/-- Claim C9 as amended: with the cursor absent, unparseable, or a parseable
in-subnet address other than the network address, every candidate the scan
tests is the successor of an address at or after the gateway, so a fresh
allocation never returns the gateway and never creates a record keyed by the
gateway; the call can still hand back the gateway through its idempotent
early return when a pre-existing record already keys the gateway to the
requesting container, so the no-gateway-return guarantee additionally needs
the store to hold no gateway-keyed record. -/
theorem allocate_never_gateway (a : IPAM) (st st1 : StoreData) (id ifName : String)
    (ip : Nat) (hWF : a.WF) (hcur : cursorOK a st = true)
    (h : AllocateIP a st id ifName = some (.ok (ip, st1))) :
    (GetIPById st id = none → a.gateway < ip) ∧
    (Contain st a.gateway = false → ip ≠ a.gateway) := by
  have hpart1 : GetIPById st id = none → a.gateway < ip := by
    intro hnone
    unfold AllocateIP at h
    rw [hnone] at h
    have hstart : a.gateway ≤ st.last.getD a.gateway := by
      cases hl : st.last with
      | none => simp
      | some L =>
        unfold cursorOK at hcur
        rw [hl] at hcur
        simp only [Bool.and_eq_true, bne_iff_ne, ne_eq] at hcur
        obtain ⟨hc, hne⟩ := hcur
        have hcb := (contains_iff hWF L).mp hc
        have hgw := hWF.2.1
        simp only [Option.getD_some]
        omega
    exact allocLoop_ok_gt a st id ifName _ _ _ _ _ hstart h
  refine ⟨hpart1, ?_⟩
  intro hcont
  rcases AllocateIP_ok_cases h with ⟨h1, -⟩ | ⟨h1, -, -⟩
  · obtain ⟨info, hmem⟩ := GetIPById_some_mem h1
    intro he
    subst he
    exact (Contain_eq_false_iff st a.gateway).mp hcont _ hmem rfl
  · have := hpart1 h1
    omega

/-- Witness for Claim C9: on 10.244.0.0/30 with one allocation and a sane
cursor, the next allocation is strictly above the gateway and in particular
not the gateway. -/
theorem allocate_never_gateway_witness :
    a30.gateway < 183762947 ∧ (183762947 : Nat) ≠ a30.gateway :=
  ⟨(allocate_never_gateway a30 ⟨[(183762946, ⟨"c1", "eth0"⟩)], some 183762946⟩
      ⟨[(183762946, ⟨"c1", "eth0"⟩), (183762947, ⟨"c2", "eth0"⟩)], some 183762947⟩
      "c2" "eth0" 183762947 ⟨rfl, rfl, rfl⟩ rfl rfl).1 rfl,
   (allocate_never_gateway a30 ⟨[(183762946, ⟨"c1", "eth0"⟩)], some 183762946⟩
      ⟨[(183762946, ⟨"c1", "eth0"⟩), (183762947, ⟨"c2", "eth0"⟩)], some 183762947⟩
      "c2" "eth0" 183762947 ⟨rfl, rfl, rfl⟩ rfl rfl).2 rfl⟩

/-! The canonical run of fresh allocations from the empty store. -/

lemma wid_injective : Function.Injective wid := by
  intro m n h
  have hlen := congrArg (fun s => s.data.length) h
  simpa [wid] using hlen

lemma seqState_GetIPById_none (a : IPAM) (f : Nat → String) (ifName : String) (k : Nat)
    (hinj : Function.Injective f) :
    GetIPById (seqState a f ifName k) (f k) = none := by
  rw [GetIPById_eq_none_iff]
  intro p hp
  simp only [seqState, List.mem_map, List.mem_range] at hp
  obtain ⟨j, hj, rfl⟩ := hp
  dsimp only
  intro he
  exact absurd (hinj he) (by omega)

lemma seqState_Contain_false (a : IPAM) (f : Nat → String) (ifName : String) (k : Nat) :
    Contain (seqState a f ifName k) (a.subnet.network + 2 + k) = false := by
  rw [Contain_eq_false_iff]
  intro p hp
  simp only [seqState, List.mem_map, List.mem_range] at hp
  obtain ⟨j, hj, rfl⟩ := hp
  dsimp only
  omega

lemma seqState_Contain_true (a : IPAM) (f : Nat → String) (ifName : String) (k j : Nat)
    (hj : j < k) :
    Contain (seqState a f ifName k) (a.subnet.network + 2 + j) = true := by
  simp only [Contain, List.any_eq_true]
  refine ⟨(a.subnet.network + 2 + j, ⟨f j, ifName⟩), ?_, ?_⟩
  · simp only [seqState, List.mem_map, List.mem_range]
    exact ⟨j, hj, rfl⟩
  · simp

lemma seqState_last_getD (a : IPAM) (f : Nat → String) (ifName : String) (k : Nat)
    (hWF : a.WF) :
    (seqState a f ifName k).last.getD a.gateway = a.subnet.network + 1 + k := by
  cases k with
  | zero => simp [seqState, hWF.2.1]
  | succ m => simp [seqState]

lemma seqState_Add (a : IPAM) (f : Nat → String) (ifName : String) (k : Nat) :
    Store.Add (seqState a f ifName k) (a.subnet.network + 2 + k) (f k) ifName
      = seqState a f ifName (k + 1) := by
  have hcon := seqState_Contain_false a f ifName k
  have h1 : (Store.Add (seqState a f ifName k) (a.subnet.network + 2 + k) (f k) ifName).ips
      = (seqState a f ifName (k + 1)).ips := by
    rw [Add_ips_new hcon]
    simp [seqState, List.range_succ]
  have h2 : (Store.Add (seqState a f ifName k) (a.subnet.network + 2 + k) (f k) ifName).last
      = (seqState a f ifName (k + 1)).last := by
    simp only [Store.Add, seqState]
    simp only [Nat.succ_ne_zero, if_false]
    exact congrArg some (by omega)
  have heta : Store.Add (seqState a f ifName k) (a.subnet.network + 2 + k) (f k) ifName
      = ⟨(Store.Add (seqState a f ifName k) (a.subnet.network + 2 + k) (f k) ifName).ips,
         (Store.Add (seqState a f ifName k) (a.subnet.network + 2 + k) (f k) ifName).last⟩ := rfl
  rw [heta, h1, h2]

lemma seqAlloc_step (a : IPAM) (f : Nat → String) (ifName : String)
    (hWF : a.WF) (hinj : Function.Injective f) (k : Nat) (hk : k < subnetSize a - 2) :
    AllocateIP a (seqState a f ifName k) (f k) ifName
      = some (.ok (a.subnet.network + 2 + k, seqState a f ifName (k + 1))) := by
  unfold AllocateIP
  rw [seqState_GetIPById_none a f ifName k hinj]
  rw [seqState_last_getD a f ifName k hWF]
  have hfuel : subnetSize a = (subnetSize a - 1) + 1 := by omega
  rw [hfuel, allocLoop_succ]
  have hnext0 : NextIP a.subnet (a.subnet.network + 1 + k)
      = .ok (a.subnet.network + 1 + k + 1) :=
    NextIP_ok hWF (by omega) (by omega)
  have he : a.subnet.network + 1 + k + 1 = a.subnet.network + 2 + k := by omega
  rw [he] at hnext0
  simp only [hnext0]
  rw [if_pos (seqState_Contain_false a f ifName k)]
  rw [seqState_Add a f ifName k]

lemma seqAlloc_climb (a : IPAM) (f : Nat → String) (id ifName : String)
    (hWF : a.WF) (hbs : 4 ≤ subnetSize a) :
    ∀ fuel j, j < subnetSize a - 2 → subnetSize a - 2 - j ≤ fuel →
      allocLoop a (seqState a f ifName (subnetSize a - 2)) id ifName
        (a.subnet.network + subnetSize a - 1) (a.subnet.network + 1 + j) fuel
        = some (.error .noAvailableIP) := by
  intro fuel
  induction fuel with
  | zero => intro j hj hb; omega
  | succ n ih =>
    intro j hj hb
    rw [allocLoop_succ]
    have hnext0 : NextIP a.subnet (a.subnet.network + 1 + j)
        = .ok (a.subnet.network + 1 + j + 1) :=
      NextIP_ok hWF (by omega) (by omega)
    have he : a.subnet.network + 1 + j + 1 = a.subnet.network + 2 + j := by omega
    rw [he] at hnext0
    simp only [hnext0]
    have hcon := seqState_Contain_true a f ifName (subnetSize a - 2) j hj
    rw [if_neg (by simp [hcon])]
    by_cases hj2 : j = subnetSize a - 3
    · have heq : a.subnet.network + 2 + j = a.subnet.network + subnetSize a - 1 := by omega
      rw [if_pos heq]
    · have hne : a.subnet.network + 2 + j ≠ a.subnet.network + subnetSize a - 1 := by omega
      rw [if_neg hne]
      have hrec := ih (j + 1) (by omega) (by omega)
      have he2 : a.subnet.network + 1 + (j + 1) = a.subnet.network + 2 + j := by omega
      rw [he2] at hrec
      exact hrec

lemma seqAlloc_exhausted (a : IPAM) (f : Nat → String) (ifName : String)
    (hWF : a.WF) (hinj : Function.Injective f) (hbs : 4 ≤ subnetSize a) :
    AllocateIP a (seqState a f ifName (subnetSize a - 2)) (f (subnetSize a - 2)) ifName
      = some (.error .noAvailableIP) := by
  unfold AllocateIP
  rw [seqState_GetIPById_none a f ifName _ hinj]
  rw [seqState_last_getD a f ifName _ hWF]
  have he : a.subnet.network + 1 + (subnetSize a - 2) = a.subnet.network + subnetSize a - 1 := by
    omega
  rw [he]
  rw [show allocLoop a (seqState a f ifName (subnetSize a - 2)) (f (subnetSize a - 2)) ifName
        (a.subnet.network + subnetSize a - 1) (a.subnet.network + subnetSize a - 1)
        (subnetSize a)
      = allocLoop a (seqState a f ifName (subnetSize a - 2)) (f (subnetSize a - 2)) ifName
        (a.subnet.network + subnetSize a - 1) (a.subnet.network + subnetSize a - 1)
        ((subnetSize a - 1) + 1) from by
    congr 1
    omega]
  rw [allocLoop_succ]
  have hov : NextIP a.subnet (a.subnet.network + subnetSize a - 1) = .error () :=
    NextIP_overflow hWF (by omega)
  simp only [hov]
  have hne : a.subnet.network + subnetSize a - 1 ≠ a.gateway := by
    have := hWF.2.1
    omega
  rw [if_pos hne]
  have hg : a.gateway = a.subnet.network + 1 + 0 := by
    have := hWF.2.1
    omega
  rw [hg]
  exact seqAlloc_climb a f (f (subnetSize a - 2)) ifName hWF hbs (subnetSize a - 1) 0
    (by omega) (by omega)

/-- Claim C5: a scan that would advance onto its own start address while that
address is still allocated fails with the no available IP error (a dedicated
error value distinct from ErrIPOverflow and from any I/O failure); and on a
subnet whose scan can serve N = subnetSize - 2 addresses (everything except
the network address and the gateway, the broadcast address included), the
first N distinct containers allocating from the empty store receive the
distinct addresses network+2, ..., network+N+1 in order while the call for
the (N+1)-st distinct container fails with exactly that error. -/
theorem allocate_exhaustion (a : IPAM) (f : Nat → String) (st : StoreData)
    (id ifName : String) (L curr fuel : Nat)
    (hWF : a.WF) (hbs : 4 ≤ subnetSize a) (hinj : Function.Injective f) :
    (NextIP a.subnet curr = .ok L → Contain st L = true →
      allocLoop a st id ifName L curr (fuel + 1) = some (.error .noAvailableIP))
    ∧ (∀ k, k < subnetSize a - 2 →
        AllocateIP a (seqState a f ifName k) (f k) ifName
          = some (.ok (a.subnet.network + 2 + k, seqState a f ifName (k + 1))))
    ∧ AllocateIP a (seqState a f ifName (subnetSize a - 2)) (f (subnetSize a - 2)) ifName
        = some (.error .noAvailableIP) := by
  refine ⟨?_, ?_, ?_⟩
  · intro hn hc
    rw [allocLoop_succ]
    simp only [hn]
    rw [if_neg (by simp [hc])]
    simp
  · intro k hk
    exact seqAlloc_step a f ifName hWF hinj k hk
  · exact seqAlloc_exhausted a f ifName hWF hinj hbs

/-- Witness for Claim C5 on 10.244.0.0/30 (N = 2): the first fresh
allocation yields 10.244.0.2 and the third distinct container is refused
with the no available IP error. -/
theorem allocate_exhaustion_witness :
    AllocateIP a30 (seqState a30 wid "eth0" 0) (wid 0) "eth0"
        = some (.ok (183762946, seqState a30 wid "eth0" 1))
    ∧ AllocateIP a30 (seqState a30 wid "eth0" 2) (wid 2) "eth0"
        = some (.error .noAvailableIP) :=
  ⟨(allocate_exhaustion a30 wid ⟨[], none⟩ "x" "eth0" 0 0 0 ⟨rfl, rfl, rfl⟩
      (by decide) wid_injective).2.1 0 (by decide),
   (allocate_exhaustion a30 wid ⟨[], none⟩ "x" "eth0" 0 0 0 ⟨rfl, rfl, rfl⟩
      (by decide) wid_injective).2.2⟩
